import Mathlib

/-!
Shallow embedding of `src/server.js` (EasyInv API server, Node.js/Express).

The server keeps two in-memory collections, `inventoryData` (a list of
inventory records) and `connectionLog` (a list of log entries), and exposes
HTTP endpoints over them.  Handlers are pure functions of the request plus the
current store, so each endpoint is embedded as a Lean function from the store
(and the request's relevant parts) to a response together with the new store.

JavaScript record values are embedded by the mutually inductive type `JsonVal`
below; records themselves are association lists of string keys to values, with
first-match lookup (a JS object has no duplicate keys, so first-match and
last-match coincide on records that represent real objects).  The request
timestamp (`new Date().toISOString()`) is passed in as an explicit string
parameter.
-/

mutual
/-- A JavaScript value as it can appear in a JSON request body or in a stored
inventory record: `undefined`, `null`, booleans, numbers (modelled as `Int`;
the program only manipulates integer quantities), strings, arrays and plain
objects. -/
inductive JsonVal : Type where
  | jUndef
  | jNull
  | jBool (b : Bool)
  | jNum (n : Int)
  | jStr (s : String)
  | jArr (elems : JsonArr)
  | jObj (fields : JsonFields)
deriving Repr
inductive JsonArr : Type where
  | anil
  | acons (hd : JsonVal) (tl : JsonArr)
deriving Repr
inductive JsonFields : Type where
  | fnil
  | fcons (key : String) (val : JsonVal) (tl : JsonFields)
deriving Repr
end

open JsonVal JsonArr JsonFields

mutual
/-- Structural equality test for `JsonVal` (the basis of its `DecidableEq`). -/
def beqVal : JsonVal → JsonVal → Bool
  | jUndef, jUndef => true
  | jNull, jNull => true
  | jBool a, jBool b => a = b
  | jNum a, jNum b => a = b
  | jStr a, jStr b => a = b
  | jArr a, jArr b => beqArr a b
  | jObj a, jObj b => beqFields a b
  | _, _ => false
def beqArr : JsonArr → JsonArr → Bool
  | anil, anil => true
  | acons h t, acons h' t' => beqVal h h' && beqArr t t'
  | _, _ => false
def beqFields : JsonFields → JsonFields → Bool
  | fnil, fnil => true
  | fcons k v t, fcons k' v' t' => k = k' && beqVal v v' && beqFields t t'
  | _, _ => false
end

mutual
theorem beqVal_iff : ∀ a b : JsonVal, beqVal a b = true ↔ a = b
  | jUndef, b => by cases b <;> simp [beqVal]
  | jNull, b => by cases b <;> simp [beqVal]
  | jBool x, b => by cases b <;> simp [beqVal]
  | jNum x, b => by cases b <;> simp [beqVal]
  | jStr x, b => by cases b <;> simp [beqVal]
  | jArr x, b => by
      cases b <;> simp [beqVal]
      exact beqArr_iff x _
  | jObj x, b => by
      cases b <;> simp [beqVal]
      exact beqFields_iff x _
theorem beqArr_iff : ∀ a b : JsonArr, beqArr a b = true ↔ a = b
  | anil, b => by cases b <;> simp [beqArr]
  | acons h t, b => by
      cases b with
      | anil => simp [beqArr]
      | acons h' t' => simp [beqArr, beqVal_iff h h', beqArr_iff t t']
theorem beqFields_iff : ∀ a b : JsonFields, beqFields a b = true ↔ a = b
  | fnil, b => by cases b <;> simp [beqFields]
  | fcons k v t, b => by
      cases b with
      | fnil => simp [beqFields]
      | fcons k' v' t' =>
        simp [beqFields, beqVal_iff v v', beqFields_iff t t', and_assoc]
end

instance : DecidableEq JsonVal :=
  fun a b => decidable_of_iff _ (beqVal_iff a b)

instance : DecidableEq JsonArr :=
  fun a b => decidable_of_iff _ (beqArr_iff a b)

instance : DecidableEq JsonFields :=
  fun a b => decidable_of_iff _ (beqFields_iff a b)

/-- JavaScript truthiness of a value: `undefined`, `null`, `false`, `0` and
`""` are falsy; every other value (including any object or array) is truthy. -/
def JsonVal.truthy : JsonVal → Bool
  | jUndef => false
  | jNull => false
  | jBool b => b
  | jNum n => n ≠ 0
  | jStr s => s ≠ ""
  | jArr _ => true
  | jObj _ => true

mutual
/-- JavaScript `String(v)` / template-literal rendering of a value.  Arrays
render as their elements joined by `","` with `null`/`undefined` elements
rendered empty; plain objects render as `"[object Object]"`. -/
def jsToString : JsonVal → String
  | jUndef => "undefined"
  | jNull => "null"
  | jBool b => if b then "true" else "false"
  | jNum n => toString n
  | jStr s => s
  | jArr es => String.intercalate "," (jsArrStrings es)
  | jObj _ => "[object Object]"
def jsArrStrings : JsonArr → List String
  | anil => []
  | acons jUndef t => "" :: jsArrStrings t
  | acons jNull t => "" :: jsArrStrings t
  | acons v t => jsToString v :: jsArrStrings t
end

/-- The underlying element list of an embedded JS array. -/
def JsonArr.toList : JsonArr → List JsonVal
  | anil => []
  | acons h t => h :: toList t

/-- Build an embedded JS array from a list of values. -/
def JsonArr.ofList : List JsonVal → JsonArr
  | [] => anil
  | h :: t => acons h (ofList t)

@[simp]
theorem JsonArr.toList_ofList (l : List JsonVal) : (JsonArr.ofList l).toList = l := by
  induction l with
  | nil => rfl
  | cons h t ih => simp [JsonArr.ofList, JsonArr.toList, ih]

/-- The key/value pairs of an embedded JS object, in property order. -/
def JsonFields.toList : JsonFields → List (String × JsonVal)
  | fnil => []
  | fcons k v t => (k, v) :: toList t

/-- `true` exactly on embedded arrays: `Array.isArray(v)`. -/
def JsonVal.isArr : JsonVal → Bool
  | jArr _ => true
  | _ => false

/-- The element list of a value, `[]` when it is not an array. -/
def JsonVal.arrElems : JsonVal → List JsonVal
  | jArr es => es.toList
  | _ => []

/-- An inventory record (or any JS object used as a record): an association
list from string keys to values, first-match lookup. -/
abbrev Record := List (String × JsonVal)

/-- Property access `record[key]`: the value bound to `key`, `jUndef`
(JavaScript `undefined`) when the key is absent. -/
def getField : Record → String → JsonVal
  | [], _ => jUndef
  | (k', v) :: rest, k => if k' = k then v else getField rest k

/-- Property update `{ ...record, key: v }` for a single key: overwrite the
binding of `key` in place if present, otherwise append it. -/
def setField : Record → String → JsonVal → Record
  | [], k, v => [(k, v)]
  | (k', v') :: rest, k, v =>
      if k' = k then (k, v) :: rest else (k', v') :: setField rest k v

/-! ## Ingestion: `POST /api/inventory` (server.js lines 66-117) -/

/-- Object spread `{ ...data }`: the own enumerable properties of a value.
Objects spread to their fields, arrays to index-keyed entries, strings to
index-keyed characters; primitives contribute no properties. -/
def spreadFields : JsonVal → Record
  | jObj fs => fs.toList
  | jArr es => es.toList.enum.map (fun p => (toString p.1, p.2))
  | jStr s => s.data.enum.map (fun p => (toString p.1, jStr (String.singleton p.2)))
  | _ => []

/-- `{ ...data, receivedAt: new Date().toISOString(), source: source || 'Unknown' }`
(server.js lines 72-76 and 88-92): the stored record built from a payload,
with the server's ingestion timestamp and origin label attached. -/
def stampRecord (data : JsonVal) (now : String) (src : JsonVal) : Record :=
  setField (setField (spreadFields data) "receivedAt" (jStr now)) "source"
    (if src.truthy then src else jStr "Unknown")

/-- The JSON body sent back by `POST /api/inventory`, together with the HTTP
status code.  Fields absent from a branch's response object are `none`. -/
structure PostResponse where
  status : Nat
  success : Bool
  message : Option String
  error : Option String
  recordId : Option Nat
  recordsAdded : Option Nat
  totalRecords : Option Nat
deriving Repr, DecidableEq

/-- Handler of `POST /api/inventory` (server.js lines 66-117).  `action`,
`data` and `src` are the `action`, `data` and `source` fields of the parsed
JSON body (`jUndef` when absent); `now` is the request's
`new Date().toISOString()` value.  Returns the response and the new store. -/
def postInventory (store : List Record) (action data src : JsonVal)
    (now : String) : PostResponse × List Record :=
  if (action = jStr "add_inventory") ∧ data.truthy = true then
    let store' := store ++ [stampRecord data now src]
    ({ status := 201, success := true, message := some "Inventory record added",
       error := none, recordId := some (store'.length - 1), recordsAdded := none,
       totalRecords := some store'.length }, store')
  else if (action = jStr "sync_inventory") ∧ data.isArr = true then
    let newRecords := data.arrElems.map (fun r => stampRecord r now src)
    let store' := store ++ newRecords
    ({ status := 200, success := true, message := some "Bulk sync completed",
       error := none, recordId := none, recordsAdded := some newRecords.length,
       totalRecords := some store'.length }, store')
  else
    ({ status := 400, success := false, message := none,
       error := some "Invalid request format", recordId := none,
       recordsAdded := none, totalRecords := none }, store)

/-! ## Query: `GET /api/inventory` (server.js lines 120-143) -/

/-- The query parameters of `GET /api/inventory`; each is the raw parameter
string, `none` when the parameter is absent from the URL. -/
structure InvQuery where
  site : Option String
  floor : Option String
  room : Option String
  shelf : Option String
  product : Option String
  limit : Option String
deriving Repr, DecidableEq

/-- One conditional filter step
`if (p) filtered = filtered.filter(r => r[key] === p)`: applied only when the
parameter is present and non-empty (JS truthiness of a string). -/
def applyFilter (l : List Record) (key : String) (p : Option String) : List Record :=
  match p with
  | some s => if s ≠ "" then l.filter (fun r => decide (getField r key = jStr s)) else l
  | none => l

/-- The five filter steps of `GET /api/inventory`, in source order
site → floor → room → shelf → product (server.js lines 126-130). -/
def applyAllFilters (store : List Record) (q : InvQuery) : List Record :=
  applyFilter (applyFilter (applyFilter (applyFilter (applyFilter
    store "site" q.site) "floor" q.floor) "room" q.room) "shelf" q.shelf)
    "productBarcode" q.product

/-- `parseInt(s)`: skip leading whitespace, read an optional sign and then
leading decimal digits; `none` models `NaN` (no digits).  Radix prefixes such
as `0x` are not modelled (no claim involves them). -/
def jsParseInt (s : String) : Option Int :=
  let cs := s.data.dropWhile Char.isWhitespace
  let signedTail : Bool × List Char :=
    match cs with
    | '-' :: t => (true, t)
    | '+' :: t => (false, t)
    | t => (false, t)
  let digits := signedTail.2.takeWhile Char.isDigit
  if digits.isEmpty then none
  else
    let n : Int := Int.ofNat (digits.foldl (fun acc c => acc * 10 + (c.toNat - '0'.toNat)) 0)
    some (if signedTail.1 then -n else n)

/-- `arr.slice(start)` for an integer `start`: negative `start` counts from the
end, clamped to the array bounds. -/
def jsSliceFrom (l : List Record) (start : Int) : List Record :=
  let len : Int := Int.ofNat l.length
  let b : Int := if start < 0 then max (len + start) 0 else min start len
  l.drop b.toNat

/-- `if (limit) filtered = filtered.slice(-parseInt(limit))` (server.js lines
133-135).  A present non-empty `limit` that does not parse gives
`slice(-NaN)`, which behaves as `slice(0)`. -/
def applyLimit (l : List Record) (p : Option String) : List Record :=
  match p with
  | some s =>
      if s ≠ "" then
        jsSliceFrom l (match jsParseInt s with
          | some n => -n
          | none => 0)
      else l
  | none => l

/-- The JSON body sent back by `GET /api/inventory` (always HTTP 200). -/
structure QueryResponse where
  success : Bool
  totalRecords : Nat
  filteredRecords : Nat
  data : List Record
deriving Repr, DecidableEq

/-- Handler of `GET /api/inventory` (server.js lines 120-143). -/
def queryInventory (store : List Record) (q : InvQuery) : QueryResponse :=
  let filtered := applyLimit (applyAllFilters store q) q.limit
  { success := true, totalRecords := store.length,
    filteredRecords := filtered.length, data := filtered }

/-! ## Statistics: `GET /api/stats` (server.js lines 146-160) -/

/-- `ToPrimitive` as used by JS `+`: arrays and plain objects convert to their
string rendering, other values are already primitive. -/
def toPrimitive : JsonVal → JsonVal
  | jObj _ => jStr "[object Object]"
  | jArr es => jStr (jsToString (jArr es))
  | v => v

/-- `Number(v)` on the non-string primitives that can reach the numeric branch
of `jsAdd`; `none` models `NaN`. -/
def toNumber : JsonVal → Option Int
  | jNull => some 0
  | jBool b => some (if b then 1 else 0)
  | jNum n => some n
  | _ => none

/-- JavaScript binary `+`: convert both operands to primitives, concatenate if
either is a string, otherwise add numerically.  A `NaN` result is modelled as
`jUndef` (never produced by this program's single use in the stats fold, whose
operands are a number-or-string accumulator and a truthy-or-zero value). -/
def jsAdd (a b : JsonVal) : JsonVal :=
  match toPrimitive a, toPrimitive b with
  | jStr s, y => jStr (s ++ jsToString y)
  | x, jStr s => jStr (jsToString x ++ s)
  | x, y =>
      match toNumber x, toNumber y with
      | some m, some n => jNum (m + n)
      | _, _ => jUndef

/-- `r.quantity || 0` (server.js line 149). -/
def quantityOrZero (r : Record) : JsonVal :=
  if (getField r "quantity").truthy then getField r "quantity" else jNum 0

/-- One insertion into a JS `Set`: keep the collection deduplicated, first
occurrence wins, insertion order preserved. -/
def jsSetInsert (acc : List JsonVal) (x : JsonVal) : List JsonVal :=
  if x ∈ acc then acc else acc ++ [x]

/-- `[...new Set(l)]`: the distinct values of `l`, first occurrences, in
insertion order (for primitive values this is exactly SameValueZero
deduplication; the program only builds sets of record field values). -/
def jsSetList (l : List JsonVal) : List JsonVal :=
  l.foldl jsSetInsert []

/-- The JSON body sent back by `GET /api/stats` (always HTTP 200). -/
structure StatsResponse where
  totalRecords : Nat
  totalProducts : JsonVal
  uniqueProducts : Nat
  sites : List JsonVal
  floors : List JsonVal
  rooms : List JsonVal
  shelves : List JsonVal
  lastUpdate : JsonVal
deriving Repr, DecidableEq

/-- Handler of `GET /api/stats` (server.js lines 146-160). -/
def getStats (store : List Record) : StatsResponse :=
  { totalRecords := store.length
    totalProducts := store.foldl (fun sum r => jsAdd sum (quantityOrZero r)) (jNum 0)
    uniqueProducts := (jsSetList (store.map (fun r => getField r "productBarcode"))).length
    sites := jsSetList ((store.map (fun r => getField r "site")).filter JsonVal.truthy)
    floors := jsSetList ((store.map (fun r => getField r "floor")).filter JsonVal.truthy)
    rooms := jsSetList ((store.map (fun r => getField r "room")).filter JsonVal.truthy)
    shelves := jsSetList ((store.map (fun r => getField r "shelf")).filter JsonVal.truthy)
    lastUpdate :=
      match store.getLast? with
      | some r => getField r "receivedAt"
      | none => jNull }

/-! ## Request log, full server state, `DELETE /api/inventory`
(server.js lines 38-49 and 172-183) -/

/-- One entry of the connection log (server.js lines 39-45). -/
structure LogEntry where
  timestamp : String
  method : String
  path : String
  ip : String
  userAgent : String
deriving Repr, DecidableEq

/-- The process-wide mutable state: `inventoryData` and `connectionLog`
(server.js lines 19-20). -/
structure ServerState where
  inventoryData : List Record
  connectionLog : List LogEntry
deriving Repr, DecidableEq

/-- The logging middleware (server.js lines 38-49): append one entry to the
connection log, leave the inventory untouched, and continue unconditionally. -/
def logRequest (st : ServerState) (e : LogEntry) : ServerState :=
  { st with connectionLog := st.connectionLog ++ [e] }

/-- The JSON body sent back by `DELETE /api/inventory` (always HTTP 200). -/
structure DeleteResponse where
  success : Bool
  message : String
  totalRecords : Nat
deriving Repr, DecidableEq

/-- Handler of `DELETE /api/inventory` (server.js lines 172-183), including
the logging middleware that runs first on every request: count the records,
clear the inventory, report the count in the message. -/
def deleteInventory (st : ServerState) (e : LogEntry) : DeleteResponse × ServerState :=
  let st' := logRequest st e
  let count := st'.inventoryData.length
  ({ success := true, message := toString count ++ " records deleted",
     totalRecords := 0 },
   { st' with inventoryData := [] })

/-! ## CSV export: `GET /api/export/csv` (server.js lines 186-209) -/

/-- The fixed CSV header names (server.js line 187). -/
def csvHeaders : List String :=
  ["Timestamp", "Site", "Floor", "Room", "Shelf", "Product_Barcode", "Quantity", "Received_At"]

/-- A quoted CSV cell `"${record[key] || dflt}"`: the field rendered as a
string when truthy, the default otherwise, wrapped in double quotes with no
escaping. -/
def csvQuotedCell (r : Record) (key : String) (dflt : String) : String :=
  "\"" ++ (if (getField r key).truthy then jsToString (getField r key) else dflt) ++ "\""

/-- The unquoted quantity cell `record.quantity || 0`, rendered by the row
join. -/
def csvQuantityCell (r : Record) : String :=
  if (getField r "quantity").truthy then jsToString (getField r "quantity") else "0"

/-- One CSV data row (server.js lines 190-202): the eight cells joined by
commas. -/
def csvRow (r : Record) : String :=
  String.intercalate ","
    [ csvQuotedCell r "timestamp" "",
      csvQuotedCell r "site" "NULL",
      csvQuotedCell r "floor" "NULL",
      csvQuotedCell r "room" "NULL",
      csvQuotedCell r "shelf" "NULL",
      csvQuotedCell r "productBarcode" "",
      csvQuantityCell r,
      csvQuotedCell r "receivedAt" "" ]

/-- The CSV line list: the joined header row followed by one row per record. -/
def csvLines (store : List Record) : List String :=
  String.intercalate "," csvHeaders :: store.map csvRow

/-- The body sent by `GET /api/export/csv`: all lines joined by newlines. -/
def exportCsv (store : List Record) : String :=
  String.intercalate "\n" (csvLines store)

/-! ## API-key gate (server.js lines 25-35) -/

/-- The credential headers a request may carry; `none` when the header is
absent. -/
structure Headers where
  authorization : Option String
  xApiKey : Option String
deriving Repr, DecidableEq

/-- JS `String.prototype.replace` with a string pattern and empty replacement:
remove the first occurrence of `pat` from `s`. -/
def removeFirst (s pat : String) : String :=
  match s.splitOn pat with
  | [] => s
  | [_] => s
  | p :: rest => p ++ String.intercalate pat rest

/-- `req.headers['authorization']?.replace('Bearer ', '') || req.headers['x-api-key']`
(server.js lines 26-27): the credential the middleware extracts. -/
def extractApiKey (h : Headers) : Option String :=
  match h.authorization with
  | some a =>
      let t := removeFirst a "Bearer "
      if t ≠ "" then some t else h.xApiKey
  | none => h.xApiKey

/-- The `validateApiKey` middleware (server.js lines 25-35): extracts the key,
but the comparison against `API_KEY` (lines 30-32) is commented out in the
source, so `next()` is always reached.  Returns the extracted key (never used
afterwards) and whether the request was rejected (never). -/
def validateApiKey (h : Headers) : Option String × Bool :=
  (extractApiKey h, false)

/-- `POST /api/inventory` behind the `validateApiKey` middleware. -/
def gatedPostInventory (h : Headers) (store : List Record)
    (action data src : JsonVal) (now : String) : PostResponse × List Record :=
  if (validateApiKey h).2 then
    ({ status := 401, success := false, message := none,
       error := some "Invalid API key", recordId := none, recordsAdded := none,
       totalRecords := none }, store)
  else postInventory store action data src now

/-- `GET /api/inventory` behind the `validateApiKey` middleware; `none` is the
rejection that the disabled gate would produce. -/
def gatedQueryInventory (h : Headers) (store : List Record) (q : InvQuery) :
    Option QueryResponse :=
  if (validateApiKey h).2 then none
  else some (queryInventory store q)

/-- `DELETE /api/inventory` behind the `validateApiKey` middleware; `none` is
the rejection that the disabled gate would produce. -/
def gatedDeleteInventory (h : Headers) (st : ServerState) (e : LogEntry) :
    Option (DeleteResponse × ServerState) :=
  if (validateApiKey h).2 then none
  else some (deleteInventory st e)

/-! ## Helper lemmas -/

theorem getField_setField_same (r : Record) (k : String) (v : JsonVal) :
    getField (setField r k v) k = v := by
  induction r with
  | nil => simp [setField, getField]
  | cons p rest ih =>
    obtain ⟨k', v'⟩ := p
    by_cases h : k' = k <;> simp [setField, getField, h, ih]

theorem getField_setField_other (r : Record) (k k' : String) (v : JsonVal)
    (h : k' ≠ k) : getField (setField r k v) k' = getField r k' := by
  induction r with
  | nil => simp [setField, getField, Ne.symm h]
  | cons p rest ih =>
    obtain ⟨k₀, v₀⟩ := p
    by_cases hk : k₀ = k
    · subst hk
      simp [setField, getField, Ne.symm h]
    · simp [setField, getField, hk, ih]

theorem stampRecord_receivedAt (d : JsonVal) (now : String) (src : JsonVal) :
    getField (stampRecord d now src) "receivedAt" = jStr now := by
  unfold stampRecord
  rw [getField_setField_other _ _ _ _ (by decide)]
  exact getField_setField_same _ _ _

theorem stampRecord_source (d : JsonVal) (now : String) (src : JsonVal) :
    getField (stampRecord d now src) "source" =
      (if src.truthy then src else jStr "Unknown") :=
  getField_setField_same _ _ _

theorem stampRecord_other (d : JsonVal) (now : String) (src : JsonVal)
    (k : String) (h1 : k ≠ "receivedAt") (h2 : k ≠ "source") :
    getField (stampRecord d now src) k = getField (spreadFields d) k := by
  unfold stampRecord
  rw [getField_setField_other _ _ _ _ h2, getField_setField_other _ _ _ _ h1]

theorem postInventory_add (store : List Record) (data src : JsonVal)
    (now : String) (hd : data.truthy = true) :
    postInventory store (jStr "add_inventory") data src now =
      ({ status := 201, success := true, message := some "Inventory record added",
         error := none, recordId := some store.length, recordsAdded := none,
         totalRecords := some (store.length + 1) },
       store ++ [stampRecord data now src]) := by
  simp [postInventory, hd]

theorem postInventory_sync (store : List Record) (es : JsonArr) (src : JsonVal)
    (now : String) :
    postInventory store (jStr "sync_inventory") (jArr es) src now =
      ({ status := 200, success := true, message := some "Bulk sync completed",
         error := none, recordId := none,
         recordsAdded := some es.toList.length,
         totalRecords := some (store.length + es.toList.length) },
       store ++ es.toList.map (fun r => stampRecord r now src)) := by
  simp [postInventory, JsonVal.isArr, JsonVal.arrElems]

theorem postInventory_invalid (store : List Record) (action data src : JsonVal)
    (now : String)
    (h1 : ¬((action = jStr "add_inventory") ∧ data.truthy = true))
    (h2 : ¬((action = jStr "sync_inventory") ∧ data.isArr = true)) :
    postInventory store action data src now =
      ({ status := 400, success := false, message := none,
         error := some "Invalid request format", recordId := none,
         recordsAdded := none, totalRecords := none }, store) := by
  simp only [postInventory, if_neg h1, if_neg h2]

/-- Claim-side predicate for one optional exact-match filter: a record passes
when the parameter is absent or empty, or when the record's field is exactly
(case-sensitively) the parameter string. -/
def matchParam (r : Record) (key : String) (p : Option String) : Bool :=
  match p with
  | some s => if s ≠ "" then decide (getField r key = jStr s) else true
  | none => true

/-- Claim-side predicate for a whole query: the five filters AND-combined. -/
def matchesQuery (q : InvQuery) (r : Record) : Bool :=
  matchParam r "site" q.site && matchParam r "floor" q.floor &&
  matchParam r "room" q.room && matchParam r "shelf" q.shelf &&
  matchParam r "productBarcode" q.product

theorem applyFilter_eq_filter (l : List Record) (key : String) (p : Option String) :
    applyFilter l key p = l.filter (fun r => matchParam r key p) := by
  match p with
  | none => simp [applyFilter, matchParam]
  | some s =>
    by_cases hs : s = "" <;> simp [applyFilter, matchParam, hs]

theorem applyAllFilters_eq_filter (store : List Record) (q : InvQuery) :
    applyAllFilters store q = store.filter (matchesQuery q) := by
  unfold applyAllFilters
  rw [applyFilter_eq_filter, applyFilter_eq_filter, applyFilter_eq_filter,
    applyFilter_eq_filter, applyFilter_eq_filter,
    List.filter_filter, List.filter_filter, List.filter_filter, List.filter_filter]
  apply List.filter_congr
  intro r _
  unfold matchesQuery
  cases matchParam r "site" q.site <;> cases matchParam r "floor" q.floor <;>
    cases matchParam r "room" q.room <;> cases matchParam r "shelf" q.shelf <;>
    cases matchParam r "productBarcode" q.product <;> rfl

theorem applyFilter_nil (key : String) (p : Option String) :
    applyFilter [] key p = [] := by
  rw [applyFilter_eq_filter]; rfl

theorem applyLimit_nil (p : Option String) : applyLimit [] p = [] := by
  match p with
  | none => rfl
  | some s =>
    by_cases hs : s = "" <;> simp [applyLimit, hs, jsSliceFrom]

theorem queryInventory_data_of_no_limit (store : List Record) (q : InvQuery)
    (h : q.limit = none) :
    (queryInventory store q).data = store.filter (matchesQuery q) := by
  simp [queryInventory, applyLimit, h, applyAllFilters_eq_filter]

/-! jsSetList lemmas -/

theorem mem_foldl_jsSetInsert (l : List JsonVal) :
    ∀ (acc : List JsonVal) (x : JsonVal),
      x ∈ l.foldl jsSetInsert acc ↔ x ∈ acc ∨ x ∈ l := by
  induction l with
  | nil => simp
  | cons h t ih =>
    intro acc x
    rw [List.foldl_cons, ih]
    unfold jsSetInsert
    by_cases hm : h ∈ acc
    · simp only [if_pos hm, List.mem_cons]
      constructor
      · tauto
      · rintro (hx | hx | hx)
        · exact Or.inl hx
        · exact Or.inl (hx ▸ hm)
        · exact Or.inr hx
    · simp only [if_neg hm, List.mem_append, List.mem_singleton, List.mem_cons]
      tauto

theorem mem_jsSetList (l : List JsonVal) (x : JsonVal) :
    x ∈ jsSetList l ↔ x ∈ l := by
  rw [jsSetList, mem_foldl_jsSetInsert]
  simp

theorem nodup_foldl_jsSetInsert (l : List JsonVal) :
    ∀ acc : List JsonVal, acc.Nodup → (l.foldl jsSetInsert acc).Nodup := by
  induction l with
  | nil => intro acc h; exact h
  | cons h t ih =>
    intro acc hacc
    rw [List.foldl_cons]
    apply ih
    unfold jsSetInsert
    by_cases hm : h ∈ acc
    · simpa [hm] using hacc
    · rw [if_neg hm, ← List.concat_eq_append]
      exact List.Nodup.concat hm hacc

theorem nodup_jsSetList (l : List JsonVal) : (jsSetList l).Nodup :=
  nodup_foldl_jsSetInsert l [] List.nodup_nil

theorem jsSetList_length_eq_card (l : List JsonVal) :
    (jsSetList l).length = l.toFinset.card := by
  have h1 : (jsSetList l).toFinset = l.toFinset := by
    ext x
    simp [List.mem_toFinset, mem_jsSetList]
  rw [← List.toFinset_card_of_nodup (nodup_jsSetList l), h1]

theorem jsSetList_append_mem (l : List JsonVal) (a : JsonVal) (h : a ∈ l) :
    jsSetList (l ++ [a]) = jsSetList l := by
  rw [jsSetList, List.foldl_append]
  have ha : a ∈ List.foldl jsSetInsert [] l := (mem_jsSetList l a).2 h
  simp [jsSetInsert, jsSetList, ha]

/-! Quantity fold lemmas -/

/-- Claim-side numeric quantity of a record: the value of its `quantity` field
when that field is a number, `0` otherwise (in particular when it is missing). -/
def quantityInt (r : Record) : Int :=
  match getField r "quantity" with
  | jNum n => n
  | _ => 0

/-- A record whose `quantity` field is a number, `null` (explicitly empty), or
absent — the shapes the claim's notion of a numeric sum covers. -/
def quantityWellTyped (r : Record) : Prop :=
  getField r "quantity" = jUndef ∨ getField r "quantity" = jNull ∨
    ∃ n, getField r "quantity" = jNum n

theorem jsAdd_num_quantity (acc : Int) (r : Record) (h : quantityWellTyped r) :
    jsAdd (jNum acc) (quantityOrZero r) = jNum (acc + quantityInt r) := by
  rcases h with h | h | ⟨n, h⟩
  · simp [quantityOrZero, quantityInt, h, jsAdd, toPrimitive, toNumber, JsonVal.truthy]
  · simp [quantityOrZero, quantityInt, h, jsAdd, toPrimitive, toNumber, JsonVal.truthy]
  · by_cases hn : n = 0 <;>
      simp [quantityOrZero, quantityInt, h, hn, jsAdd, toPrimitive, toNumber, JsonVal.truthy]

theorem foldl_jsAdd_quantity (l : List Record) :
    ∀ acc : Int, (∀ r ∈ l, quantityWellTyped r) →
      l.foldl (fun sum r => jsAdd sum (quantityOrZero r)) (jNum acc) =
        jNum (acc + (l.map quantityInt).sum) := by
  induction l with
  | nil => intro acc _; simp
  | cons r t ih =>
    intro acc hwt
    rw [List.foldl_cons, jsAdd_num_quantity acc r (hwt r (by simp)),
      ih _ (fun r' hr' => hwt r' (by simp [hr']))]
    simp [add_assoc]

/-! Limit / slice lemmas -/

theorem jsSliceFrom_neg (l : List Record) (n : Int) (hn : 1 ≤ n) :
    jsSliceFrom l (-n) = l.drop (l.length - n.toNat) := by
  simp only [jsSliceFrom, Int.ofNat_eq_natCast]
  rw [if_pos (by omega : (-n : Int) < 0)]
  congr 1
  omega

theorem jsParseInt_empty : jsParseInt "" = none := rfl

theorem applyLimit_parsed (l : List Record) (s : String) (n : Int)
    (hp : jsParseInt s = some n) (hn : 1 ≤ n) :
    applyLimit l (some s) = l.drop (l.length - n.toNat) := by
  have hs : s ≠ "" := by
    intro h
    rw [h, jsParseInt_empty] at hp
    exact Option.noConfusion hp
  simp only [applyLimit, if_pos hs, hp]
  exact jsSliceFrom_neg l n hn

/-! ## Claim theorems -/

/-- C1: every `POST /api/inventory` with action `"add_inventory"` and a
mapping present as `data` appends exactly one record — the supplied data with
`receivedAt` and `source` attached (`source` defaults to `"Unknown"` when
absent, i.e. whenever the body's `source` is not truthy) — and responds 201
with success `true`, `recordId` the new record's 0-based position, and
`totalRecords` the new store length. -/
theorem addInventory_appends_one (store : List Record) (fs : JsonFields)
    (src : JsonVal) (now : String) :
    (postInventory store (jStr "add_inventory") (jObj fs) src now).1.status = 201 ∧
    (postInventory store (jStr "add_inventory") (jObj fs) src now).1.success = true ∧
    (postInventory store (jStr "add_inventory") (jObj fs) src now).2 =
      store ++ [stampRecord (jObj fs) now src] ∧
    (postInventory store (jStr "add_inventory") (jObj fs) src now).2.length =
      store.length + 1 ∧
    getField (stampRecord (jObj fs) now src) "receivedAt" = jStr now ∧
    getField (stampRecord (jObj fs) now src) "source" =
      (if src.truthy then src else jStr "Unknown") ∧
    (∀ k, k ≠ "receivedAt" → k ≠ "source" →
      getField (stampRecord (jObj fs) now src) k = getField fs.toList k) ∧
    (postInventory store (jStr "add_inventory") (jObj fs) src now).1.recordId =
      some store.length ∧
    (postInventory store (jStr "add_inventory") (jObj fs) src now).1.totalRecords =
      some (store.length + 1) := by
  have hadd := postInventory_add store (jObj fs) src now rfl
  refine ⟨by rw [hadd], by rw [hadd], by rw [hadd], by rw [hadd]; simp,
    stampRecord_receivedAt _ _ _, stampRecord_source _ _ _,
    ?_, by rw [hadd], by rw [hadd]⟩
  intro k h1 h2
  rw [stampRecord_other _ _ _ k h1 h2]
  rfl

/-- Witness for C1 at a concrete request: one barcode record, absent source. -/
theorem addInventory_appends_one_witness :
    (postInventory [] (jStr "add_inventory")
        (jObj (fcons "productBarcode" (jStr "123") fnil)) jUndef "T0").1.status = 201 ∧
    getField (stampRecord (jObj (fcons "productBarcode" (jStr "123") fnil)) "T0" jUndef)
        "productBarcode" = jStr "123" ∧
    getField (stampRecord (jObj (fcons "productBarcode" (jStr "123") fnil)) "T0" jUndef)
        "source" = jStr "Unknown" := by
  have h := addInventory_appends_one [] (fcons "productBarcode" (jStr "123") fnil) jUndef "T0"
  refine ⟨h.1, ?_, ?_⟩
  · have h7 := h.2.2.2.2.2.2.1 "productBarcode" (by decide) (by decide)
    rw [h7]
    decide
  · have h6 := h.2.2.2.2.2.1
    rw [h6]
    decide

/-- C2: every `POST /api/inventory` with action `"sync_inventory"` and `data`
an ordered sequence of N elements appends all N elements in order, each
stamped with the same `receivedAt` and the same `source`; the store grows by
exactly N and the response is 200 with success `true`, `recordsAdded` N and
`totalRecords` the new store length. -/
theorem syncInventory_appends_all (store : List Record) (es : JsonArr)
    (src : JsonVal) (now : String) :
    (postInventory store (jStr "sync_inventory") (jArr es) src now).1.status = 200 ∧
    (postInventory store (jStr "sync_inventory") (jArr es) src now).1.success = true ∧
    (postInventory store (jStr "sync_inventory") (jArr es) src now).2 =
      store ++ es.toList.map (fun e => stampRecord e now src) ∧
    (postInventory store (jStr "sync_inventory") (jArr es) src now).2.length =
      store.length + es.toList.length ∧
    (postInventory store (jStr "sync_inventory") (jArr es) src now).1.recordsAdded =
      some es.toList.length ∧
    (postInventory store (jStr "sync_inventory") (jArr es) src now).1.totalRecords =
      some (store.length + es.toList.length) ∧
    (∀ e, e ∈ es.toList →
      getField (stampRecord e now src) "receivedAt" = jStr now ∧
      getField (stampRecord e now src) "source" =
        (if src.truthy then src else jStr "Unknown")) := by
  have hsync := postInventory_sync store es src now
  refine ⟨by rw [hsync], by rw [hsync], by rw [hsync], by rw [hsync]; simp,
    by rw [hsync], by rw [hsync], ?_⟩
  intro e _
  exact ⟨stampRecord_receivedAt _ _ _, stampRecord_source _ _ _⟩

/-- Witness for C2 at a concrete request: two records synced at once. -/
theorem syncInventory_appends_all_witness :
    (postInventory [] (jStr "sync_inventory")
        (jArr (acons (jObj (fcons "productBarcode" (jStr "A") fnil))
          (acons (jObj (fcons "productBarcode" (jStr "B") fnil)) anil)))
        (jStr "EasyInv") "T0").1.recordsAdded = some 2 ∧
    getField (stampRecord (jObj (fcons "productBarcode" (jStr "A") fnil)) "T0"
        (jStr "EasyInv")) "receivedAt" = jStr "T0" := by
  have h := syncInventory_appends_all []
    (acons (jObj (fcons "productBarcode" (jStr "A") fnil))
      (acons (jObj (fcons "productBarcode" (jStr "B") fnil)) anil))
    (jStr "EasyInv") "T0"
  refine ⟨by rw [h.2.2.2.2.1]; decide, ?_⟩
  exact (h.2.2.2.2.2.2 (jObj (fcons "productBarcode" (jStr "A") fnil)) (by decide)).1

/-- C3 counterexample: action `"add_inventory"` with `data` an (empty) array —
not a single mapping, so by the claim the server should answer 400 and leave
the store unchanged — is accepted, because the code only tests `data` for
truthiness: the response status is 201 and one record is appended. -/
theorem invalidFormat_counterexample :
    (postInventory [] (jStr "add_inventory") (jArr anil) jUndef "T0").1.status ≠ 400 ∧
    (postInventory [] (jStr "add_inventory") (jArr anil) jUndef "T0").1.status = 201 ∧
    (postInventory [] (jStr "add_inventory") (jArr anil) jUndef "T0").2 ≠ [] := by
  decide

/-- C3 (amended): a `POST /api/inventory` answers 400 with a failure flag and
the generic invalid-format message, leaving the store unchanged, exactly when
the live checks fail — the action is not `"add_inventory"` with truthy `data`,
and not `"sync_inventory"` with `data` an array.  (For `"add_inventory"` any
truthy `data` of any shape is accepted; only falsy `data` is rejected.) -/
theorem invalidFormat_rejects (store : List Record) (action data src : JsonVal)
    (now : String)
    (h1 : ¬((action = jStr "add_inventory") ∧ data.truthy = true))
    (h2 : ¬((action = jStr "sync_inventory") ∧ data.isArr = true)) :
    (postInventory store action data src now).1.status = 400 ∧
    (postInventory store action data src now).1.success = false ∧
    (postInventory store action data src now).1.error = some "Invalid request format" ∧
    (postInventory store action data src now).2 = store := by
  rw [postInventory_invalid store action data src now h1 h2]
  exact ⟨rfl, rfl, rfl, rfl⟩

/-- Witness for the amended C3: an unknown action with a mapping present. -/
theorem invalidFormat_rejects_witness :
    (postInventory [] (jStr "delete_all") (jObj fnil) jUndef "T0").1.status = 400 ∧
    (postInventory [] (jStr "delete_all") (jObj fnil) jUndef "T0").2 = [] := by
  have h := invalidFormat_rejects [] (jStr "delete_all") (jObj fnil) jUndef "T0"
    (by decide) (by decide)
  exact ⟨h.1, h.2.2.2⟩

/-- C4: on every `GET /api/inventory`, `totalRecords` is the unfiltered store
length no matter which filters apply; and when no `limit` parameter is given
the returned data is exactly the store records whose `site`, `floor`, `room`,
`shelf` and `productBarcode` fields equal each present non-empty query
parameter (exact, case-sensitive, AND-combined), in insertion order (the
filter keeps the store's order). -/
theorem queryInventory_filters_exact (store : List Record) (q : InvQuery) :
    (queryInventory store q).totalRecords = store.length ∧
    (q.limit = none →
      (queryInventory store q).data = store.filter (matchesQuery q) ∧
      (queryInventory store q).filteredRecords =
        (store.filter (matchesQuery q)).length) := by
  refine ⟨rfl, fun h => ⟨queryInventory_data_of_no_limit store q h, ?_⟩⟩
  simp [queryInventory, applyLimit, h, applyAllFilters_eq_filter]

/-- Witness for C4: a two-record store filtered by `site=A`. -/
theorem queryInventory_filters_exact_witness :
    (queryInventory [[("site", jStr "A")], [("site", jStr "B")]]
        ⟨some "A", none, none, none, none, none⟩).totalRecords = 2 ∧
    (queryInventory [[("site", jStr "A")], [("site", jStr "B")]]
        ⟨some "A", none, none, none, none, none⟩).data = [[("site", jStr "A")]] := by
  have h := queryInventory_filters_exact [[("site", jStr "A")], [("site", jStr "B")]]
    ⟨some "A", none, none, none, none, none⟩
  refine ⟨h.1, ?_⟩
  rw [(h.2 rfl).1]
  decide

/-- C5 counterexample: `limit=0` is present with numeric value N = 0, yet on a
one-record store the query returns that record — `slice(-0)` is `slice(0)`,
the whole filtered list — not "at most 0 records" as the claim requires. -/
theorem limit_zero_counterexample :
    jsParseInt "0" = some 0 ∧
    (queryInventory [[("site", jStr "A")]]
        ⟨none, none, none, none, none, some "0"⟩).data = [[("site", jStr "A")]] ∧
    ¬((queryInventory [[("site", jStr "A")]]
        ⟨none, none, none, none, none, some "0"⟩).data.length ≤ 0) := by
  decide

/-- C5 (amended): when the `limit` parameter parses to an integer N ≥ 1, the
returned data is the trailing N of the filtered result: at most N records, the
most recently inserted ones, as a suffix of the filtered sequence in its
original order. -/
theorem limit_returns_trailing (store : List Record) (q : InvQuery)
    (s : String) (n : Int) (hl : q.limit = some s)
    (hp : jsParseInt s = some n) (hn : 1 ≤ n) :
    (queryInventory store q).data =
      (applyAllFilters store q).drop ((applyAllFilters store q).length - n.toNat) ∧
    (queryInventory store q).data.length ≤ n.toNat ∧
    (applyAllFilters store q).take ((applyAllFilters store q).length - n.toNat) ++
      (queryInventory store q).data = applyAllFilters store q := by
  have hd : (queryInventory store q).data =
      (applyAllFilters store q).drop ((applyAllFilters store q).length - n.toNat) := by
    simp [queryInventory, hl, applyLimit_parsed _ s n hp hn]
  refine ⟨hd, ?_, ?_⟩
  · rw [hd, List.length_drop]
    omega
  · rw [hd]
    exact List.take_append_drop _ _

/-- Witness for the amended C5: `limit=1` on a two-record store returns the
most recently inserted record. -/
theorem limit_returns_trailing_witness :
    (queryInventory [[("productBarcode", jStr "1")], [("productBarcode", jStr "2")]]
        ⟨none, none, none, none, none, some "1"⟩).data =
      [[("productBarcode", jStr "2")]] ∧
    (1 : Int) ≤ 1 := by
  have h := limit_returns_trailing
    [[("productBarcode", jStr "1")], [("productBarcode", jStr "2")]]
    ⟨none, none, none, none, none, some "1"⟩ "1" 1 rfl (by decide) (by decide)
  refine ⟨?_, by decide⟩
  rw [h.1]
  decide

theorem jsSetList_filter_spec (l : List JsonVal) :
    (jsSetList (l.filter JsonVal.truthy)).Nodup ∧
    ∀ v, v ∈ jsSetList (l.filter JsonVal.truthy) ↔ (v.truthy = true ∧ v ∈ l) := by
  refine ⟨nodup_jsSetList _, fun v => ?_⟩
  rw [mem_jsSetList, List.mem_filter]
  tauto

/-- C6: `GET /api/stats` computes, over records whose `quantity` is a number
or empty/missing: `totalProducts` = the sum of the quantities with missing
treated as 0; `uniqueProducts` = the number of distinct `productBarcode`
values (unchanged when a record with an already-present barcode is appended);
`sites`/`floors`/`rooms`/`shelves` = the distinct truthy (non-empty) values of
the respective fields; `lastUpdate` = the `receivedAt` of the most recently
appended record, or empty (`null`) for an empty store. -/
theorem stats_aggregates (store : List Record)
    (hq : ∀ r ∈ store, quantityWellTyped r) :
    (getStats store).totalProducts = jNum ((store.map quantityInt).sum) ∧
    (getStats store).uniqueProducts =
      (store.map (fun r => getField r "productBarcode")).toFinset.card ∧
    (∀ r : Record, getField r "productBarcode" ∈
        store.map (fun r' => getField r' "productBarcode") →
      (getStats (store ++ [r])).uniqueProducts = (getStats store).uniqueProducts) ∧
    ((getStats store).sites.Nodup ∧ ∀ v, v ∈ (getStats store).sites ↔
      (v.truthy = true ∧ v ∈ store.map (fun r => getField r "site"))) ∧
    ((getStats store).floors.Nodup ∧ ∀ v, v ∈ (getStats store).floors ↔
      (v.truthy = true ∧ v ∈ store.map (fun r => getField r "floor"))) ∧
    ((getStats store).rooms.Nodup ∧ ∀ v, v ∈ (getStats store).rooms ↔
      (v.truthy = true ∧ v ∈ store.map (fun r => getField r "room"))) ∧
    ((getStats store).shelves.Nodup ∧ ∀ v, v ∈ (getStats store).shelves ↔
      (v.truthy = true ∧ v ∈ store.map (fun r => getField r "shelf"))) ∧
    (store = [] → (getStats store).lastUpdate = jNull) ∧
    (∀ r, store.getLast? = some r →
      (getStats store).lastUpdate = getField r "receivedAt") := by
  refine ⟨?_, ?_, ?_, ?_, ?_, ?_, ?_, ?_, ?_⟩
  · simp only [getStats]
    rw [foldl_jsAdd_quantity store 0 hq, zero_add]
  · simp only [getStats]
    exact jsSetList_length_eq_card _
  · intro r hr
    simp only [getStats, List.map_append, List.map_cons, List.map_nil]
    rw [jsSetList_append_mem _ _ hr]
  · simpa only [getStats] using jsSetList_filter_spec (store.map (fun r => getField r "site"))
  · simpa only [getStats] using jsSetList_filter_spec (store.map (fun r => getField r "floor"))
  · simpa only [getStats] using jsSetList_filter_spec (store.map (fun r => getField r "room"))
  · simpa only [getStats] using jsSetList_filter_spec (store.map (fun r => getField r "shelf"))
  · intro h
    subst h
    rfl
  · intro r hr
    simp only [getStats, hr]

/-- Witness for C6: one record (barcode X, quantity 5, site A, receivedAt T0),
then a second record with the same barcode appended. -/
theorem stats_aggregates_witness :
    (getStats [[("productBarcode", jStr "X"), ("quantity", jNum 5),
        ("site", jStr "A"), ("receivedAt", jStr "T0")]]).totalProducts = jNum 5 ∧
    (getStats [[("productBarcode", jStr "X"), ("quantity", jNum 5),
        ("site", jStr "A"), ("receivedAt", jStr "T0")]]).uniqueProducts = 1 ∧
    (getStats ([[("productBarcode", jStr "X"), ("quantity", jNum 5),
        ("site", jStr "A"), ("receivedAt", jStr "T0")]] ++
      [[("productBarcode", jStr "X")]])).uniqueProducts = 1 ∧
    jStr "A" ∈ (getStats [[("productBarcode", jStr "X"), ("quantity", jNum 5),
        ("site", jStr "A"), ("receivedAt", jStr "T0")]]).sites ∧
    (getStats [[("productBarcode", jStr "X"), ("quantity", jNum 5),
        ("site", jStr "A"), ("receivedAt", jStr "T0")]]).lastUpdate = jStr "T0" := by
  have h := stats_aggregates [[("productBarcode", jStr "X"), ("quantity", jNum 5),
      ("site", jStr "A"), ("receivedAt", jStr "T0")]]
    (by
      intro r hr
      simp only [List.mem_singleton] at hr
      subst hr
      right; right
      exact ⟨5, rfl⟩)
  refine ⟨?_, ?_, ?_, ?_, ?_⟩
  · rw [h.1]; decide
  · rw [h.2.1]; decide
  · rw [h.2.2.1 [("productBarcode", jStr "X")] (by decide), h.2.1]; decide
  · exact (h.2.2.2.1.2 (jStr "A")).2 (by decide)
  · rw [h.2.2.2.2.2.2.2.2 [("productBarcode", jStr "X"), ("quantity", jNum 5),
      ("site", jStr "A"), ("receivedAt", jStr "T0")] rfl]
    decide

/-- C7: `DELETE /api/inventory` empties the store — any subsequent query
returns zero records — reports in its message a deleted count equal to the
store length immediately before the call and a new total of 0, and leaves the
log unchanged apart from the entry the universal request logger appended for
this very request. -/
theorem deleteInventory_clears (st : ServerState) (e : LogEntry) :
    (deleteInventory st e).2.inventoryData = [] ∧
    (∀ q, (queryInventory (deleteInventory st e).2.inventoryData q).data = [] ∧
      (queryInventory (deleteInventory st e).2.inventoryData q).filteredRecords = 0) ∧
    (deleteInventory st e).1.message =
      toString st.inventoryData.length ++ " records deleted" ∧
    (deleteInventory st e).1.totalRecords = 0 ∧
    (deleteInventory st e).1.success = true ∧
    (deleteInventory st e).2.connectionLog = st.connectionLog ++ [e] := by
  refine ⟨rfl, ?_, rfl, rfl, rfl, rfl⟩
  intro q
  have hfilters : applyAllFilters [] q = [] := by
    simp [applyAllFilters, applyFilter_nil]
  have hq : queryInventory (deleteInventory st e).2.inventoryData q =
      queryInventory [] q := rfl
  rw [hq]
  constructor <;> simp [queryInventory, hfilters, applyLimit_nil]

/-- C8: the CSV export body is the fixed header row followed by exactly one
row per stored record in insertion order; quoted text cells render a missing
`timestamp`/`productBarcode`/`receivedAt` as the empty string and a missing
`site`/`floor`/`room`/`shelf` as the literal text `NULL`; a missing
`quantity` renders as `0` and a numeric one as that number, unquoted; present
string fields are wrapped in double quotes verbatim — no escaping of embedded
quotes or commas. -/
theorem exportCsv_spec (store : List Record) :
    exportCsv store =
      String.intercalate "\n"
        ("Timestamp,Site,Floor,Room,Shelf,Product_Barcode,Quantity,Received_At"
          :: store.map csvRow) ∧
    (csvLines store).length = store.length + 1 ∧
    (∀ r : Record,
      csvRow r = String.intercalate ","
        [csvQuotedCell r "timestamp" "", csvQuotedCell r "site" "NULL",
         csvQuotedCell r "floor" "NULL", csvQuotedCell r "room" "NULL",
         csvQuotedCell r "shelf" "NULL", csvQuotedCell r "productBarcode" "",
         csvQuantityCell r, csvQuotedCell r "receivedAt" ""] ∧
      (getField r "timestamp" = jUndef → csvQuotedCell r "timestamp" "" = "\"\"") ∧
      (getField r "productBarcode" = jUndef → csvQuotedCell r "productBarcode" "" = "\"\"") ∧
      (getField r "receivedAt" = jUndef → csvQuotedCell r "receivedAt" "" = "\"\"") ∧
      (getField r "site" = jUndef → csvQuotedCell r "site" "NULL" = "\"NULL\"") ∧
      (getField r "floor" = jUndef → csvQuotedCell r "floor" "NULL" = "\"NULL\"") ∧
      (getField r "room" = jUndef → csvQuotedCell r "room" "NULL" = "\"NULL\"") ∧
      (getField r "shelf" = jUndef → csvQuotedCell r "shelf" "NULL" = "\"NULL\"") ∧
      (getField r "quantity" = jUndef → csvQuantityCell r = "0") ∧
      (∀ n : Int, getField r "quantity" = jNum n → csvQuantityCell r = toString n) ∧
      (∀ key s, getField r key = jStr s → s ≠ "" →
        csvQuotedCell r key "" = "\"" ++ s ++ "\"" ∧
        csvQuotedCell r key "NULL" = "\"" ++ s ++ "\"")) := by
  refine ⟨rfl, by simp [csvLines], fun r => ⟨rfl, ?_, ?_, ?_, ?_, ?_, ?_, ?_, ?_, ?_, ?_⟩⟩
  · intro hu; simp [csvQuotedCell, hu, JsonVal.truthy]
  · intro hu; simp [csvQuotedCell, hu, JsonVal.truthy]
  · intro hu; simp [csvQuotedCell, hu, JsonVal.truthy]
  · intro hu; simp [csvQuotedCell, hu, JsonVal.truthy]
  · intro hu; simp [csvQuotedCell, hu, JsonVal.truthy]
  · intro hu; simp [csvQuotedCell, hu, JsonVal.truthy]
  · intro hu; simp [csvQuotedCell, hu, JsonVal.truthy]
  · intro hu; simp [csvQuantityCell, hu, JsonVal.truthy]
  · intro n hn
    by_cases h0 : n = 0
    · simp only [csvQuantityCell, hn, h0, JsonVal.truthy]
      decide
    · simp [csvQuantityCell, hn, h0, JsonVal.truthy, jsToString]
  · intro key s hs hne
    constructor <;> simp [csvQuotedCell, hs, JsonVal.truthy, hne, jsToString]

/-- Witness for C8: a record whose only field is a site name with an embedded
double quote; every other column falls back to its default. -/
theorem exportCsv_spec_witness :
    (csvLines [[("site", jStr "A\"B")]]).length = 2 ∧
    csvQuotedCell [("site", jStr "A\"B")] "timestamp" "" = "\"\"" ∧
    csvQuotedCell [("site", jStr "A\"B")] "site" "NULL" = "\"A\"B\"" ∧
    csvQuotedCell [("site", jStr "A\"B")] "floor" "NULL" = "\"NULL\"" ∧
    csvQuantityCell [("site", jStr "A\"B")] = "0" := by
  have h := exportCsv_spec [[("site", jStr "A\"B")]]
  have hr := h.2.2 [("site", jStr "A\"B")]
  refine ⟨h.2.1, hr.2.1 (by decide), ?_, ?_, hr.2.2.2.2.2.2.2.2.1 (by decide)⟩
  · exact ((hr.2.2.2.2.2.2.2.2.2.2 "site" "A\"B" (by decide) (by decide)).2)
  · exact hr.2.2.2.2.2.1 (by decide)

/-- C9: the `validateApiKey` gate never rejects, and for each key-gated
endpoint (`POST`, `GET` and `DELETE` on `/api/inventory`) the full result —
status, body, and effect on the store — is identical for two requests that
differ only in their `Authorization` / `x-api-key` headers. -/
theorem apiKeyGate_no_effect (h h' : Headers) (store : List Record)
    (action data src : JsonVal) (now : String) (q : InvQuery)
    (st : ServerState) (e : LogEntry) :
    (validateApiKey h).2 = false ∧
    gatedPostInventory h store action data src now =
      gatedPostInventory h' store action data src now ∧
    gatedQueryInventory h store q = gatedQueryInventory h' store q ∧
    gatedDeleteInventory h st e = gatedDeleteInventory h' st e :=
  ⟨rfl, rfl, rfl, rfl⟩

/-- C10: on both ingestion paths, a payload that itself carries `receivedAt`
or `source` keys is still stored with the server-assigned stamps — the
server's values overwrite the client-supplied ones, because they are applied
after the payload fields are copied — while every other payload field is
stored verbatim. -/
theorem serverStamps_override (store : List Record) (fs : JsonFields)
    (src : JsonVal) (now : String) (v : JsonVal)
    (_hpay : ("receivedAt", v) ∈ fs.toList ∨ ("source", v) ∈ fs.toList) :
    (postInventory store (jStr "add_inventory") (jObj fs) src now).2 =
      store ++ [stampRecord (jObj fs) now src] ∧
    (postInventory store (jStr "sync_inventory") (jArr (acons (jObj fs) anil))
        src now).2 = store ++ [stampRecord (jObj fs) now src] ∧
    getField (stampRecord (jObj fs) now src) "receivedAt" = jStr now ∧
    getField (stampRecord (jObj fs) now src) "source" =
      (if src.truthy then src else jStr "Unknown") ∧
    (∀ k, k ≠ "receivedAt" → k ≠ "source" →
      getField (stampRecord (jObj fs) now src) k = getField fs.toList k) := by
  refine ⟨?_, ?_, stampRecord_receivedAt _ _ _, stampRecord_source _ _ _, ?_⟩
  · rw [postInventory_add store (jObj fs) src now rfl]
  · rw [postInventory_sync store (acons (jObj fs) anil) src now]
    rfl
  · intro k h1 h2
    rw [stampRecord_other _ _ _ k h1 h2]
    rfl

/-- Witness for C10: a payload smuggling its own `receivedAt` is stored with
the server's timestamp instead. -/
theorem serverStamps_override_witness :
    getField (stampRecord (jObj (fcons "receivedAt" (jStr "1999") fnil)) "T0" jUndef)
      "receivedAt" = jStr "T0" ∧
    getField (stampRecord (jObj (fcons "receivedAt" (jStr "1999") fnil)) "T0" jUndef)
      "receivedAt" ≠ jStr "1999" := by
  have h := serverStamps_override [] (fcons "receivedAt" (jStr "1999") fnil) jUndef "T0"
    (jStr "1999") (Or.inl (by decide))
  exact ⟨h.2.2.1, by rw [h.2.2.1]; decide⟩
